import Mathlib

/-!
# Verification of `yew-state` (thedodd/yew-state)

Shallow embedding of the repository's two source files:

* `src/handler.rs` — the `Handler` trait with its two implementations
  `SharedHandler<T>` (pure in-memory, `Rc`-based copy-on-write) and
  `StorageHandler<T>` (same, plus best-effort persistence through
  `yew::services::StorageService`);
* `src/component/wrapper.rs` — the broadcast agent `SharedStateService`
  (subscriber registry + dispatch/notify) and the component wrapper
  `SharedStateComponent` (its `change` lifecycle hook).

Modelling decisions:

* `Rc<T>` is modelled by an explicit heap of reference-counted cells
  (`RcHeap`): `vals` holds the cell contents, `counts` the strong counts.
  Each handler owns the heap its state cell lives in; a snapshot handed
  out by `state()` is the index of the cell it points to.  `Rc::make_mut`
  (used by both `apply` implementations) mutates in place when the strong
  count is 1 and clones into a fresh cell otherwise, exactly as in Rust.
* Reductions `Rc<dyn Fn(&mut T)>` / `Box<dyn FnOnce(&mut T)>` are modelled
  as functions `T → T` (in-place mutation of the model value).
* `HashSet<HandlerId>` is modelled as a duplicate-free `List Nat`
  (`HandlerId`s are opaque tokens); `AgentLink::respond` is modelled by
  returning the list of `(recipient, snapshot)` pairs a call emits.
* The browser storage backend and the serde codec are external
  collaborators: they are modelled as an environment value
  (`StorageEnv`) stating whether the capability is available and what a
  `restore` of the handler's key would yield (missing record, record that
  fails to deserialize, or a successfully parsed value).  The codec is
  assumed lossless and deterministic, as the spec requires.
-/

set_option autoImplicit false

namespace YewState

variable {T : Type}

/-- A heap of reference-counted cells, modelling the `Rc` allocations a
handler's state lives in.  `vals[i]` is the content of cell `i`,
`counts[i]` its strong count (0 = freed; contents of freed cells are
retained so that stale indices stay well-typed, they are never read). -/
structure RcHeap (T : Type) where
  vals : List T
  counts : List Nat
  deriving DecidableEq

/-- `f(Rc::make_mut(&mut rc))` on the cell `ptr` of heap `hp`: if the
strong count of `ptr` is exactly 1 the cell is mutated in place;
otherwise the content is cloned into a fresh cell (count 1), the old
cell's count is decremented, and the mutation happens on the fresh cell.
Returns the updated heap and the (possibly fresh) cell index. -/
def RcHeap.makeMutApply [Inhabited T] (f : T → T) (hp : RcHeap T) (ptr : Nat) :
    RcHeap T × Nat :=
  if hp.counts.getD ptr 0 = 1 then
    ({ hp with vals := hp.vals.set ptr (f (hp.vals.getD ptr default)) }, ptr)
  else
    ({ vals := hp.vals ++ [f (hp.vals.getD ptr default)],
       counts := hp.counts.set ptr (hp.counts.getD ptr 0 - 1) ++ [1] },
     hp.vals.length)

/-- `Rc::clone` of the cell `ptr`: bump its strong count. -/
def RcHeap.cloneAt (hp : RcHeap T) (ptr : Nat) : RcHeap T :=
  { hp with counts := hp.counts.set ptr (hp.counts.getD ptr 0 + 1) }

/-- Handler for basic shared state (`SharedHandler<T>` in `src/handler.rs`):
a single `Rc<T>` field `state`, modelled as a heap plus the index of the
cell the `Rc` points to. -/
structure SharedHandler (T : Type) where
  heap : RcHeap T
  ptr : Nat
  deriving DecidableEq

/-- `SharedHandler::new` = `Default::default()`: `Rc::new(T::default())`,
a fresh cell with strong count 1. -/
def SharedHandler.new [Inhabited T] : SharedHandler T :=
  { heap := { vals := [default], counts := [1] }, ptr := 0 }

/-- `SharedHandler::apply`: `f(Rc::make_mut(&mut self.state))`. -/
def SharedHandler.apply [Inhabited T] (h : SharedHandler T) (f : T → T) :
    SharedHandler T :=
  let r := h.heap.makeMutApply f h.ptr
  { heap := r.1, ptr := r.2 }

/-- `SharedHandler::apply_once`: same body as `apply` (the `FnOnce` is
consumed by the single invocation). -/
def SharedHandler.apply_once [Inhabited T] (h : SharedHandler T) (f : T → T) :
    SharedHandler T :=
  let r := h.heap.makeMutApply f h.ptr
  { heap := r.1, ptr := r.2 }

/-- `SharedHandler::state`: `Rc::clone(&self.state)` — hands out the
current cell index as a snapshot, bumping its strong count. -/
def SharedHandler.state (h : SharedHandler T) : Nat × SharedHandler T :=
  (h.ptr, { h with heap := h.heap.cloneAt h.ptr })

/-- The value a handler's state currently holds (content of its cell). -/
def SharedHandler.val? (h : SharedHandler T) : Option T :=
  h.heap.vals[h.ptr]?

/-- Structural sanity of a handler: its pointer is a live index and the
count list matches the value list. -/
def SharedHandler.inv (h : SharedHandler T) : Prop :=
  h.ptr < h.heap.vals.length ∧ h.heap.counts.length = h.heap.vals.length

/-- Full reference-count accounting of a heap/pointer pair against the
list `snaps` of outstanding snapshot cell indices: every count equals the
handler's own reference (1 at `ptr`) plus the number of outstanding
snapshots of that cell. -/
def RcHeap.accounted (hp : RcHeap T) (ptr : Nat) (snaps : List Nat) : Prop :=
  ptr < hp.vals.length ∧
  hp.counts.length = hp.vals.length ∧
  (∀ s ∈ snaps, s < hp.vals.length) ∧
  ∀ i < hp.vals.length,
    hp.counts.getD i 0 = (if i = ptr then 1 else 0) + snaps.count i

instance SharedHandler.decInv (h : SharedHandler T) : Decidable h.inv := by
  unfold SharedHandler.inv
  infer_instance

instance RcHeap.decAccounted (hp : RcHeap T) (ptr : Nat) (snaps : List Nat) :
    Decidable (hp.accounted ptr snaps) := by
  unfold RcHeap.accounted
  infer_instance

/-- What restoring the handler's key from browser storage would yield:
no record under the key, a record that fails to deserialize, or a record
that parses to a value.  (`restore` returns `Json(Result<Rc<T>, _>)`;
the first two cases both surface as `Err`.) -/
inductive LoadResult (T : Type) where
  | missing : LoadResult T
  | corrupt : LoadResult T
  | ok (v : T) : LoadResult T
  deriving DecidableEq

/-- The external storage world as seen by one handler: whether
`StorageService::new(T::area())` succeeds, and what the record under
`T::key()` currently is. -/
structure StorageEnv (T : Type) where
  available : Bool
  record : LoadResult T
  deriving DecidableEq

/-- An acquired `StorageService` handle, carrying the record reachable
under the handler's key. -/
structure StorageStore (T : Type) where
  record : LoadResult T
  deriving DecidableEq

/-- Handler for shared state with persistent storage
(`StorageHandler<T>` in `src/handler.rs`): the same `Rc<T>` state plus an
`Option<StorageService>`. -/
structure StorageHandler (T : Type) where
  heap : RcHeap T
  ptr : Nat
  storage : Option (StorageStore T)
  deriving DecidableEq

/-- `StorageHandler::load_state`: restore the record under `T::key()`;
only on `Some(Json(Ok(state)))` assign `self.state = state`.  The
deserialized `Rc` is a fresh allocation; assigning it drops the old one
(count decremented) and points the handler at the fresh cell. -/
def StorageHandler.load_state (h : StorageHandler T) : StorageHandler T :=
  match h.storage with
  | none => h
  | some st =>
    match st.record with
    | .ok v =>
      { h with
        heap := { vals := h.heap.vals ++ [v],
                  counts := h.heap.counts.set h.ptr (h.heap.counts.getD h.ptr 0 - 1) ++ [1] },
        ptr := h.heap.vals.length }
    | _ => h

/-- `StorageHandler::save_state`: if a storage handle is present, store
`Json(&self.state)` under `T::key()` (the codec is lossless, so a later
restore of this record parses back to the stored value); with no handle
this is a no-op. -/
def StorageHandler.save_state [Inhabited T] (h : StorageHandler T) : StorageHandler T :=
  match h.storage with
  | none => h
  | some _ => { h with storage := some { record := .ok (h.heap.vals.getD h.ptr default) } }

/-- `StorageHandler::new`: `Default::default()` (default state, no
storage), then `this.storage = StorageService::new(T::area()).ok()`,
then `this.load_state()`. -/
def StorageHandler.new [Inhabited T] (env : StorageEnv T) : StorageHandler T :=
  let this : StorageHandler T :=
    { heap := { vals := [default], counts := [1] }, ptr := 0,
      storage := if env.available then some { record := env.record } else none }
  this.load_state

/-- `StorageHandler::apply`: `f(Rc::make_mut(&mut self.state))`, then
`self.save_state()`. -/
def StorageHandler.apply [Inhabited T] (h : StorageHandler T) (f : T → T) :
    StorageHandler T :=
  let r := h.heap.makeMutApply f h.ptr
  StorageHandler.save_state { heap := r.1, ptr := r.2, storage := h.storage }

/-- `StorageHandler::apply_once`: same body as `apply`. -/
def StorageHandler.apply_once [Inhabited T] (h : StorageHandler T) (f : T → T) :
    StorageHandler T :=
  let r := h.heap.makeMutApply f h.ptr
  StorageHandler.save_state { heap := r.1, ptr := r.2, storage := h.storage }

/-- `StorageHandler::state`: `Rc::clone(&self.state)`. -/
def StorageHandler.state (h : StorageHandler T) : Nat × StorageHandler T :=
  (h.ptr, { h with heap := h.heap.cloneAt h.ptr })

/-- The value a `StorageHandler`'s state currently holds. -/
def StorageHandler.val? (h : StorageHandler T) : Option T :=
  h.heap.vals[h.ptr]?

/-- `impl Clone for StorageHandler`: `let mut new = Self::new();
new.state = self.state.clone(); new`.  `Self::new()` re-acquires the
storage capability from the ambient environment; the assignment then
replaces the freshly loaded state with (a shared handle to) the source's
current value — in this per-handler heap view, a cell holding that
value. -/
def StorageHandler.clone [Inhabited T] (h : StorageHandler T) (env : StorageEnv T) :
    StorageHandler T :=
  let n := StorageHandler.new env
  { n with
    heap := { vals := n.heap.vals ++ [h.heap.vals.getD h.ptr default],
              counts := n.heap.counts.set n.ptr (n.heap.counts.getD n.ptr 0 - 1) ++ [1] },
    ptr := n.heap.vals.length }

/-- The in-memory part of a `StorageHandler` (its `state` field), as a
`SharedHandler`. -/
def StorageHandler.toShared (h : StorageHandler T) : SharedHandler T :=
  { heap := h.heap, ptr := h.ptr }

/-- `Request<T>` in `src/component/wrapper.rs`: a reusable reduction or
a one-shot reduction. -/
inductive Request (T : Type) where
  | Apply (f : T → T) : Request T
  | ApplyOnce (f : T → T) : Request T

/-- The mutation a request describes, at the value level. -/
def Request.run : Request T → T → T
  | .Apply f => f
  | .ApplyOnce f => f

/-- Dispatching one request to a `SharedHandler` (the `match` in
`handle_input`): `Apply` goes to `apply`, `ApplyOnce` to `apply_once`. -/
def Request.runShared [Inhabited T] (r : Request T) (h : SharedHandler T) :
    SharedHandler T :=
  match r with
  | .Apply f => h.apply f
  | .ApplyOnce f => h.apply_once f

/-- Dispatching one request to a `StorageHandler`. -/
def Request.runStorage [Inhabited T] (r : Request T) (h : StorageHandler T) :
    StorageHandler T :=
  match r with
  | .Apply f => h.apply f
  | .ApplyOnce f => h.apply_once f

/-- The context agent `SharedStateService<T, SCOPE>` in
`src/component/wrapper.rs`, instantiated at the in-memory handler: the
handler plus the `HashSet<HandlerId>` subscriber registry (a
duplicate-free list of opaque ids).  `link` is modelled by returning the
responses a call emits. -/
structure SharedStateService (T : Type) where
  handler : SharedHandler T
  subscriptions : List Nat
  deriving DecidableEq

/-- `Agent::create`: a fresh handler via `Handler::new()` and an empty
registry. -/
def SharedStateService.create [Inhabited T] : SharedStateService T :=
  { handler := SharedHandler.new, subscriptions := [] }

/-- The `for who in self.subscriptions.iter().cloned()` loop of
`handle_input`: for each registered id, respond with
`Response::State(self.handler.state())` — each iteration takes its own
snapshot from the handler.  Returns the handler after all the
`state()` calls together with the emitted `(recipient, snapshot)`
pairs. -/
def SharedStateService.respondLoop (subs : List Nat) (h : SharedHandler T) :
    SharedHandler T × List (Nat × Nat) :=
  match subs with
  | [] => (h, [])
  | who :: rest =>
    let s := h.state
    let r := respondLoop rest s.2
    (r.1, (who, s.1) :: r.2)

/-- `Agent::handle_input(msg, _who)`: apply the request to the handler
(`apply` for `Request::Apply`, `apply_once` for `Request::ApplyOnce`),
then notify every subscriber.  The sender id `_who` is ignored by the
body. -/
def SharedStateService.handle_input (s : SharedStateService T) [Inhabited T]
    (msg : Request T) (_who : Nat) : SharedStateService T × List (Nat × Nat) :=
  let h :=
    match msg with
    | .Apply f => s.handler.apply f
    | .ApplyOnce f => s.handler.apply_once f
  let r := SharedStateService.respondLoop s.subscriptions h
  ({ handler := r.1, subscriptions := s.subscriptions }, r.2)

/-- `Agent::connected(who)`: insert `who` into the registry
(`HashSet::insert`: no duplicate is created) and respond to `who` with
the current state. -/
def SharedStateService.connected (s : SharedStateService T) (who : Nat) :
    SharedStateService T × List (Nat × Nat) :=
  let subs := if who ∈ s.subscriptions then s.subscriptions else who :: s.subscriptions
  let r := s.handler.state
  ({ handler := r.2, subscriptions := subs }, [(who, r.1)])

/-- `Agent::disconnected(who)`: remove `who` from the registry. -/
def SharedStateService.disconnected (s : SharedStateService T) (who : Nat) :
    SharedStateService T :=
  { s with subscriptions := s.subscriptions.erase who }

/-- Run a list of `(request, sender)` inputs through the service,
discarding the responses. -/
def SharedStateService.runInputs [Inhabited T] (s : SharedStateService T)
    (msgs : List (Request T × Nat)) : SharedStateService T :=
  msgs.foldl (fun s m => (s.handle_input m.1 m.2).1) s

/-- One external event delivered to the agent: an input message from a
sender, a connection, or a disconnection. -/
inductive Event (T : Type) where
  | input (msg : Request T) (w : Nat) : Event T
  | conn (w : Nat) : Event T
  | disc (w : Nat) : Event T

/-- Dispatching one event to the agent, collecting the responses it
emits. -/
def SharedStateService.step [Inhabited T] (s : SharedStateService T) (e : Event T) :
    SharedStateService T × List (Nat × Nat) :=
  match e with
  | .input msg w => s.handle_input msg w
  | .conn w => s.connected w
  | .disc w => (s.disconnected w, [])

/-- Run a trace of events, concatenating all emitted responses. -/
def SharedStateService.runTrace [Inhabited T] (s : SharedStateService T) :
    List (Event T) → SharedStateService T × List (Nat × Nat)
  | [] => (s, [])
  | e :: rest =>
    let r := s.step e
    let r2 := SharedStateService.runTrace r.1 rest
    (r2.1, r.2 ++ r2.2)

/-- Modelled from the spec: the state handle of `src/handle.rs` is not in
the source tree (only `wrapper.rs` uses it).  Per §6, a handle carries a
locally cached snapshot of the state (plus callbacks, irrelevant here). -/
structure Handle (T : Type) where
  state : T
  deriving DecidableEq

/-- Modelled from the spec: `Handle::set_local` (from the missing
`src/handle.rs`) — §6: "a way … to copy another handle's locally cached
value into it (used on property change)". -/
def Handle.set_local (self other : Handle T) : Handle T :=
  { self with state := other.state }

/-- Component properties implementing `SharedState`: they expose a
handle (`props.handle()`); `rest` stands for the component's other,
parent-supplied property data. -/
structure Props (T α : Type) where
  handle : Handle T
  rest : α
  deriving DecidableEq

/-- The component wrapper `SharedStateComponent` (the part of its state
relevant to the `change` hook: its current props). -/
structure SharedStateComponent (T α : Type) where
  props : Props T α
  deriving DecidableEq

/-- `Component::change(props)` in `src/component/wrapper.rs`:
`props.handle().set_local(self.props.handle()); self.props = props;
true`. -/
def SharedStateComponent.change {α : Type} (c : SharedStateComponent T α)
    (props : Props T α) : SharedStateComponent T α × Bool :=
  let props := { props with handle := props.handle.set_local c.props.handle }
  ({ props := props }, true)

theorem SharedHandler.inv_new [Inhabited T] : (SharedHandler.new : SharedHandler T).inv := by
  constructor <;> simp [SharedHandler.new]

theorem SharedHandler.val?_new [Inhabited T] :
    (SharedHandler.new : SharedHandler T).val? = some default := by
  simp [SharedHandler.new, SharedHandler.val?]

theorem RcHeap.makeMutApply_val [Inhabited T] (f : T → T) (hp : RcHeap T) (ptr : Nat)
    (hlt : ptr < hp.vals.length) :
    (hp.makeMutApply f ptr).1.vals[(hp.makeMutApply f ptr).2]? = (hp.vals[ptr]?).map f := by
  unfold RcHeap.makeMutApply
  split
  · simp [List.getElem?_set_self hlt, List.getD, List.getElem?_eq_getElem hlt]
  · simp [List.getD, List.getElem?_eq_getElem hlt, List.getElem?_append_right]

theorem RcHeap.makeMutApply_inv [Inhabited T] (f : T → T) (hp : RcHeap T) (ptr : Nat)
    (hlt : ptr < hp.vals.length) (hlen : hp.counts.length = hp.vals.length) :
    (hp.makeMutApply f ptr).2 < (hp.makeMutApply f ptr).1.vals.length ∧
    (hp.makeMutApply f ptr).1.counts.length = (hp.makeMutApply f ptr).1.vals.length := by
  unfold RcHeap.makeMutApply
  split <;> simp [hlt, hlen]

theorem SharedHandler.apply_val? [Inhabited T] (h : SharedHandler T) (f : T → T)
    (hinv : h.inv) : (h.apply f).val? = (h.val?).map f :=
  RcHeap.makeMutApply_val f h.heap h.ptr hinv.1

theorem SharedHandler.apply_inv [Inhabited T] (h : SharedHandler T) (f : T → T)
    (hinv : h.inv) : (h.apply f).inv :=
  RcHeap.makeMutApply_inv f h.heap h.ptr hinv.1 hinv.2

theorem SharedHandler.apply_once_val? [Inhabited T] (h : SharedHandler T) (f : T → T)
    (hinv : h.inv) : (h.apply_once f).val? = (h.val?).map f :=
  RcHeap.makeMutApply_val f h.heap h.ptr hinv.1

theorem SharedHandler.apply_once_inv [Inhabited T] (h : SharedHandler T) (f : T → T)
    (hinv : h.inv) : (h.apply_once f).inv :=
  RcHeap.makeMutApply_inv f h.heap h.ptr hinv.1 hinv.2

theorem SharedHandler.state_fst (h : SharedHandler T) : (h.state).1 = h.ptr := rfl

theorem SharedHandler.state_vals (h : SharedHandler T) :
    (h.state).2.heap.vals = h.heap.vals := rfl

theorem SharedHandler.state_ptr (h : SharedHandler T) : (h.state).2.ptr = h.ptr := rfl

theorem SharedHandler.state_val? (h : SharedHandler T) : (h.state).2.val? = h.val? := rfl

theorem SharedHandler.state_inv (h : SharedHandler T) (hinv : h.inv) : (h.state).2.inv := by
  refine ⟨hinv.1, ?_⟩
  simpa [SharedHandler.state, RcHeap.cloneAt] using hinv.2

namespace SharedStateService

theorem respondLoop_map_fst (subs : List Nat) (h : SharedHandler T) :
    (respondLoop subs h).2.map Prod.fst = subs := by
  induction subs generalizing h with
  | nil => rfl
  | cons who rest ih => simp [respondLoop, ih]

theorem respondLoop_vals (subs : List Nat) (h : SharedHandler T) :
    (respondLoop subs h).1.heap.vals = h.heap.vals := by
  induction subs generalizing h with
  | nil => rfl
  | cons who rest ih => simpa [respondLoop, ih] using h.state_vals

theorem respondLoop_ptr (subs : List Nat) (h : SharedHandler T) :
    (respondLoop subs h).1.ptr = h.ptr := by
  induction subs generalizing h with
  | nil => rfl
  | cons who rest ih => simpa [respondLoop, ih] using h.state_ptr

theorem respondLoop_val? (subs : List Nat) (h : SharedHandler T) :
    (respondLoop subs h).1.val? = h.val? := by
  unfold SharedHandler.val?
  rw [respondLoop_vals, respondLoop_ptr]

theorem respondLoop_snd (subs : List Nat) (h : SharedHandler T) :
    ∀ o ∈ (respondLoop subs h).2, o.2 = h.ptr := by
  induction subs generalizing h with
  | nil => intro o ho; cases ho
  | cons who rest ih =>
    intro o ho
    simp only [respondLoop, List.mem_cons] at ho
    rcases ho with rfl | ho
    · rfl
    · simpa [SharedHandler.state] using ih (h.state).2 o ho

theorem respondLoop_length (subs : List Nat) (h : SharedHandler T) :
    (respondLoop subs h).2.length = subs.length := by
  induction subs generalizing h with
  | nil => rfl
  | cons who rest ih => simp [respondLoop, ih]

theorem respondLoop_inv (subs : List Nat) (h : SharedHandler T) (hinv : h.inv) :
    (respondLoop subs h).1.inv := by
  induction subs generalizing h with
  | nil => exact hinv
  | cons who rest ih => exact ih (h.state).2 (h.state_inv hinv)

variable [Inhabited T]

theorem handle_input_subs (s : SharedStateService T) (msg : Request T) (w : Nat) :
    (s.handle_input msg w).1.subscriptions = s.subscriptions := rfl

theorem handle_input_map_fst (s : SharedStateService T) (msg : Request T) (w : Nat) :
    (s.handle_input msg w).2.map Prod.fst = s.subscriptions :=
  respondLoop_map_fst s.subscriptions _

theorem handle_input_val? (s : SharedStateService T) (msg : Request T) (w : Nat)
    (hinv : s.handler.inv) :
    (s.handle_input msg w).1.handler.val? = (s.handler.val?).map msg.run := by
  cases msg with
  | Apply f =>
    simpa [handle_input, respondLoop_val?, Request.run] using
      s.handler.apply_val? f hinv
  | ApplyOnce f =>
    simpa [handle_input, respondLoop_val?, Request.run] using
      s.handler.apply_once_val? f hinv

theorem handle_input_inv (s : SharedStateService T) (msg : Request T) (w : Nat)
    (hinv : s.handler.inv) : (s.handle_input msg w).1.handler.inv := by
  cases msg with
  | Apply f => exact respondLoop_inv _ _ (s.handler.apply_inv f hinv)
  | ApplyOnce f => exact respondLoop_inv _ _ (s.handler.apply_once_inv f hinv)

theorem runInputs_val? (msgs : List (Request T × Nat)) (s : SharedStateService T)
    (v : T) (hinv : s.handler.inv) (hv : s.handler.val? = some v) :
    (s.runInputs msgs).handler.val? =
      some (msgs.foldl (fun a m => m.1.run a) v) ∧
    (s.runInputs msgs).handler.inv := by
  induction msgs generalizing s v with
  | nil => exact ⟨hv, hinv⟩
  | cons m rest ih =>
    have h1 := handle_input_val? s m.1 m.2 hinv
    rw [hv] at h1
    have h2 := handle_input_inv s m.1 m.2 hinv
    simpa [runInputs] using ih (s.handle_input m.1 m.2).1 (m.1.run v) h2 h1

theorem runInputs_subs (msgs : List (Request T × Nat)) (s : SharedStateService T) :
    (s.runInputs msgs).subscriptions = s.subscriptions := by
  induction msgs generalizing s with
  | nil => rfl
  | cons m rest ih => simpa [runInputs] using ih (s.handle_input m.1 m.2).1

end SharedStateService

theorem RcHeap.makeMutApply_frame [Inhabited T] (f : T → T) (hp : RcHeap T) (ptr : Nat)
    (snaps : List Nat) (hacc : hp.accounted ptr snaps) {s : Nat} (hs : s ∈ snaps) :
    (hp.makeMutApply f ptr).1.vals[s]? = hp.vals[s]? := by
  obtain ⟨hptr, hlen, hsn, hcount⟩ := hacc
  unfold RcHeap.makeMutApply
  split
  · rename_i hone
    have hz : snaps.count ptr = 0 := by
      have h1 := hcount ptr hptr
      rw [if_pos rfl] at h1
      omega
    have hni : ptr ∉ snaps := List.count_eq_zero.mp hz
    have hne : ptr ≠ s := fun he => hni (he ▸ hs)
    simp [List.getElem?_set_ne hne]
  · have hslt := hsn s hs
    simp [List.getElem?_append, hslt]

theorem StorageHandler.save_state_heap [Inhabited T] (h : StorageHandler T) :
    (h.save_state).heap = h.heap ∧ (h.save_state).ptr = h.ptr := by
  unfold StorageHandler.save_state
  split <;> exact ⟨rfl, rfl⟩

theorem StorageHandler.apply_vals [Inhabited T] (h : StorageHandler T) (f : T → T) :
    (h.apply f).heap.vals = (h.heap.makeMutApply f h.ptr).1.vals := by
  unfold StorageHandler.apply
  exact congrArg RcHeap.vals (StorageHandler.save_state_heap _).1

theorem StorageHandler.apply_once_vals [Inhabited T] (h : StorageHandler T) (f : T → T) :
    (h.apply_once f).heap.vals = (h.heap.makeMutApply f h.ptr).1.vals := by
  unfold StorageHandler.apply_once
  exact congrArg RcHeap.vals (StorageHandler.save_state_heap _).1

theorem StorageHandler.save_state_of_none [Inhabited T] (h : StorageHandler T)
    (hst : h.storage = none) : h.save_state = h := by
  unfold StorageHandler.save_state
  rw [hst]

theorem StorageHandler.apply_of_none [Inhabited T] (h : StorageHandler T) (f : T → T)
    (hst : h.storage = none) :
    (h.apply f).toShared = h.toShared.apply f ∧ (h.apply f).storage = none := by
  obtain ⟨heap, ptr, storage⟩ := h
  obtain rfl : storage = none := hst
  exact ⟨rfl, rfl⟩

theorem StorageHandler.apply_once_of_none [Inhabited T] (h : StorageHandler T) (f : T → T)
    (hst : h.storage = none) :
    (h.apply_once f).toShared = h.toShared.apply_once f ∧ (h.apply_once f).storage = none := by
  obtain ⟨heap, ptr, storage⟩ := h
  obtain rfl : storage = none := hst
  exact ⟨rfl, rfl⟩

theorem Request.runStorage_of_none [Inhabited T] (r : Request T) (h : StorageHandler T)
    (hst : h.storage = none) :
    (r.runStorage h).toShared = r.runShared h.toShared ∧ (r.runStorage h).storage = none := by
  cases r with
  | Apply f => exact h.apply_of_none f hst
  | ApplyOnce f => exact h.apply_once_of_none f hst

theorem StorageHandler.foldl_of_none [Inhabited T] (ops : List (Request T))
    (h : StorageHandler T) (hst : h.storage = none) :
    (ops.foldl (fun h r => r.runStorage h) h).toShared =
      ops.foldl (fun h r => r.runShared h) h.toShared ∧
    (ops.foldl (fun h r => r.runStorage h) h).storage = none := by
  induction ops generalizing h with
  | nil => exact ⟨rfl, hst⟩
  | cons op rest ih =>
    have h1 := op.runStorage_of_none h hst
    have h2 := ih (op.runStorage h) h1.2
    simpa [h1.1] using h2

theorem StorageHandler.new_of_unavailable [Inhabited T] (env : StorageEnv T)
    (henv : env.available = false) :
    StorageHandler.new env =
      { heap := { vals := [default], counts := [1] }, ptr := 0, storage := none } := by
  unfold StorageHandler.new StorageHandler.load_state
  rw [henv]
  rfl

theorem SharedStateService.runTrace_not_delivered [Inhabited T] (evs : List (Event T))
    (s : SharedStateService T) (who : Nat) (hout : who ∉ s.subscriptions)
    (hevs : ∀ e ∈ evs, e ≠ Event.conn who) :
    who ∉ (s.runTrace evs).1.subscriptions ∧
    who ∉ (s.runTrace evs).2.map Prod.fst := by
  induction evs generalizing s with
  | nil => exact ⟨hout, by simp [SharedStateService.runTrace]⟩
  | cons e rest ih =>
    have hsub : who ∉ (s.step e).1.subscriptions ∧ who ∉ (s.step e).2.map Prod.fst := by
      cases e with
      | input msg w =>
        refine ⟨hout, ?_⟩
        rw [SharedStateService.step, SharedStateService.handle_input_map_fst]
        exact hout
      | conn w =>
        have hw : w ≠ who := fun he => (hevs (Event.conn w) (by simp)) (by rw [he])
        constructor
        · show who ∉ (if w ∈ s.subscriptions then s.subscriptions else w :: s.subscriptions)
          split
          · exact hout
          · intro hmem
            rcases List.mem_cons.mp hmem with he | he
            · exact hw he.symm
            · exact hout he
        · show who ∉ ([(w, (s.handler.state).1)]).map Prod.fst
          simp only [List.map_cons, List.map_nil, List.mem_singleton]
          exact fun he => hw he.symm
      | disc w =>
        refine ⟨fun hmem => hout (List.mem_of_mem_erase hmem), by simp [SharedStateService.step]⟩
    have hrest := ih (s.step e).1 hsub.1 (fun e' he' => hevs e' (List.mem_cons_of_mem e he'))
    refine ⟨hrest.1, ?_⟩
    simp only [SharedStateService.runTrace, List.map_append, List.mem_append]
    rintro (h | h)
    · exact hsub.2 h
    · exact hrest.2 h

/-- C1: for every dispatched mutation request (reusable or one-shot), after the
service applies it to the handler, the emitted responses hit every subscriber
identity registered at broadcast time exactly once: each registered id receives
exactly one snapshot response and every other id receives none. -/
theorem C1_broadcast_exactly_once [Inhabited T] (s : SharedStateService T)
    (msg : Request T) (w : Nat) (hnd : s.subscriptions.Nodup) (id : Nat) :
    ((s.handle_input msg w).2.map Prod.fst).count id =
      if id ∈ s.subscriptions then 1 else 0 := by
  rw [SharedStateService.handle_input_map_fst]
  split
  · exact List.count_eq_one_of_mem hnd (by assumption)
  · exact List.count_eq_zero_of_not_mem (by assumption)

theorem C1_broadcast_exactly_once_witness :
    ([1, 2] : List Nat).Nodup ∧
    ((SharedStateService.handle_input ⟨SharedHandler.new, [1, 2]⟩
        (Request.Apply fun n => n + 1) 0).2.map Prod.fst).count 1 =
      (if 1 ∈ ([1, 2] : List Nat) then 1 else 0) :=
  ⟨by decide,
   C1_broadcast_exactly_once ⟨SharedHandler.new, [1, 2]⟩ (Request.Apply fun n => n + 1) 0
     (by decide) 1⟩

/-- C2: a subscriber connecting to the service is registered and immediately
receives exactly one response carrying the handler's current snapshot; after `N`
dispatched mutations from the initial service, that snapshot's value is the fold
of all `N` mutations over the default model. -/
theorem C2_late_join_consistency [Inhabited T] (msgs : List (Request T × Nat)) (who : Nat) :
    who ∈ ((SharedStateService.create.runInputs msgs).connected who).1.subscriptions ∧
    ((SharedStateService.create.runInputs msgs).connected who).2.map Prod.fst = [who] ∧
    ∀ o ∈ ((SharedStateService.create.runInputs msgs).connected who).2,
      ((SharedStateService.create.runInputs msgs).connected who).1.handler.heap.vals[o.2]? =
        some (msgs.foldl (fun a m => m.1.run a) default) := by
  have hrun := SharedStateService.runInputs_val? msgs SharedStateService.create default
    SharedHandler.inv_new SharedHandler.val?_new
  refine ⟨?_, rfl, ?_⟩
  · show who ∈ (if who ∈ (SharedStateService.create.runInputs msgs).subscriptions
      then (SharedStateService.create.runInputs msgs).subscriptions
      else who :: (SharedStateService.create.runInputs msgs).subscriptions)
    split
    · assumption
    · exact List.mem_cons_self who _
  · intro o ho
    have ho' : o = (who, (SharedStateService.create.runInputs msgs).handler.ptr) := by
      simpa [SharedStateService.connected] using ho
    subst ho'
    show ((SharedStateService.create.runInputs msgs).handler.state).2.heap.vals[_]? = _
    rw [SharedHandler.state_vals]
    exact hrun.1

/-- C3 counterexample: the dispatch algorithm does not take the updated snapshot
exactly once from the handler — the loop takes one snapshot per subscriber.
With two registered subscribers a single dispatch emits two responses, and the
strong count of the handler's state cell rises by two (two `Rc` clones are
taken from the handler), not by one. -/
theorem C3_not_taken_once :
    (((⟨SharedHandler.new, [1, 2]⟩ : SharedStateService Nat).handle_input
        (Request.Apply fun n => n + 1) 1).2.length = 2) ∧
    (((⟨SharedHandler.new, [1, 2]⟩ : SharedStateService Nat).handle_input
        (Request.Apply fun n => n + 1) 1).1.handler.heap.counts.sum =
      (SharedHandler.new : SharedHandler Nat).heap.counts.sum + 2) := by
  decide

/-- C3 amended: the dispatch algorithm takes the updated snapshot from the
handler once per registered subscriber (one take per emitted response), and
every response carries the handler's current state cell, whose value is the
handler's post-mutation state. -/
theorem C3_snapshot_once_per_subscriber [Inhabited T] (s : SharedStateService T)
    (msg : Request T) (w : Nat) (v : T) (hinv : s.handler.inv)
    (hv : s.handler.val? = some v) :
    (s.handle_input msg w).2.length = s.subscriptions.length ∧
    ∀ o ∈ (s.handle_input msg w).2,
      o.2 = (s.handle_input msg w).1.handler.ptr ∧
      (s.handle_input msg w).1.handler.heap.vals[o.2]? = some (msg.run v) := by
  refine ⟨SharedStateService.respondLoop_length _ _, ?_⟩
  have hval := SharedStateService.handle_input_val? s msg w hinv
  rw [hv] at hval
  intro o ho
  cases msg with
  | Apply f =>
    have hsnd : o.2 = (s.handler.apply f).ptr :=
      SharedStateService.respondLoop_snd s.subscriptions (s.handler.apply f) o ho
    have hptr : (s.handle_input (Request.Apply f) w).1.handler.ptr = (s.handler.apply f).ptr :=
      SharedStateService.respondLoop_ptr _ _
    refine ⟨hsnd.trans hptr.symm, ?_⟩
    rw [hsnd, ← hptr]
    exact hval
  | ApplyOnce f =>
    have hsnd : o.2 = (s.handler.apply_once f).ptr :=
      SharedStateService.respondLoop_snd s.subscriptions (s.handler.apply_once f) o ho
    have hptr : (s.handle_input (Request.ApplyOnce f) w).1.handler.ptr =
        (s.handler.apply_once f).ptr :=
      SharedStateService.respondLoop_ptr _ _
    refine ⟨hsnd.trans hptr.symm, ?_⟩
    rw [hsnd, ← hptr]
    exact hval

theorem C3_snapshot_once_per_subscriber_witness :
    (SharedHandler.new : SharedHandler Nat).inv ∧
    (SharedHandler.new : SharedHandler Nat).val? = some 0 ∧
    (((⟨SharedHandler.new, [1, 2]⟩ : SharedStateService Nat).handle_input
        (Request.Apply fun n => n + 1) 1).2.length = ([1, 2] : List Nat).length ∧
     ∀ o ∈ ((⟨SharedHandler.new, [1, 2]⟩ : SharedStateService Nat).handle_input
        (Request.Apply fun n => n + 1) 1).2,
      o.2 = ((⟨SharedHandler.new, [1, 2]⟩ : SharedStateService Nat).handle_input
        (Request.Apply fun n => n + 1) 1).1.handler.ptr ∧
      ((⟨SharedHandler.new, [1, 2]⟩ : SharedStateService Nat).handle_input
        (Request.Apply fun n => n + 1) 1).1.handler.heap.vals[o.2]? =
        some ((Request.Apply fun n => n + 1).run 0)) :=
  ⟨by decide, rfl,
   C3_snapshot_once_per_subscriber ⟨SharedHandler.new, [1, 2]⟩
     (Request.Apply fun n => n + 1) 1 0 (by decide) rfl⟩

/-- C4: for every outstanding snapshot (fully accounted in the handler's
reference counts), a subsequent `apply` or `apply_once` on either handler
variant leaves the snapshot's cell value unchanged: copy-on-write makes a
private copy when the cell is shared and only the handler's own storage is
mutated. -/
theorem C4_snapshots_never_mutated [Inhabited T] (sh : SharedHandler T)
    (st : StorageHandler T) (snaps : List Nat) (s : Nat) (f g : T → T)
    (hsh : sh.heap.accounted sh.ptr snaps) (hst : st.heap.accounted st.ptr snaps)
    (hs : s ∈ snaps) :
    (sh.apply f).heap.vals[s]? = sh.heap.vals[s]? ∧
    (sh.apply_once f).heap.vals[s]? = sh.heap.vals[s]? ∧
    (st.apply g).heap.vals[s]? = st.heap.vals[s]? ∧
    (st.apply_once g).heap.vals[s]? = st.heap.vals[s]? := by
  refine ⟨?_, ?_, ?_, ?_⟩
  · exact RcHeap.makeMutApply_frame f sh.heap sh.ptr snaps hsh hs
  · exact RcHeap.makeMutApply_frame f sh.heap sh.ptr snaps hsh hs
  · rw [StorageHandler.apply_vals]
    exact RcHeap.makeMutApply_frame g st.heap st.ptr snaps hst hs
  · rw [StorageHandler.apply_once_vals]
    exact RcHeap.makeMutApply_frame g st.heap st.ptr snaps hst hs

theorem C4_snapshots_never_mutated_witness :
    (RcHeap.accounted ⟨[0], [2]⟩ 0 [0] : Prop) ∧ 0 ∈ [0] ∧
    (((⟨⟨[0], [2]⟩, 0⟩ : SharedHandler Nat).apply (fun n => n + 1)).heap.vals[0]? =
        (⟨⟨[0], [2]⟩, 0⟩ : SharedHandler Nat).heap.vals[0]? ∧
     ((⟨⟨[0], [2]⟩, 0⟩ : SharedHandler Nat).apply_once (fun n => n + 1)).heap.vals[0]? =
        (⟨⟨[0], [2]⟩, 0⟩ : SharedHandler Nat).heap.vals[0]? ∧
     ((⟨⟨[0], [2]⟩, 0, none⟩ : StorageHandler Nat).apply (fun n => n + 2)).heap.vals[0]? =
        (⟨⟨[0], [2]⟩, 0, none⟩ : StorageHandler Nat).heap.vals[0]? ∧
     ((⟨⟨[0], [2]⟩, 0, none⟩ : StorageHandler Nat).apply_once (fun n => n + 2)).heap.vals[0]? =
        (⟨⟨[0], [2]⟩, 0, none⟩ : StorageHandler Nat).heap.vals[0]?) :=
  ⟨by decide, by decide,
   C4_snapshots_never_mutated ⟨⟨[0], [2]⟩, 0⟩ ⟨⟨[0], [2]⟩, 0, none⟩ [0] 0
     (fun n => n + 1) (fun n => n + 2) (by decide) (by decide) (by decide)⟩

/-- C5: after a subscriber disconnects, its identity is gone from the registry,
and over any subsequent event trace in which it does not reconnect — however
many mutations are dispatched — no emitted response is addressed to it. -/
theorem C5_disconnection_silence [Inhabited T] (s : SharedStateService T) (who : Nat)
    (hnd : s.subscriptions.Nodup) (evs : List (Event T))
    (hevs : ∀ e ∈ evs, e ≠ Event.conn who) :
    who ∉ (s.disconnected who).subscriptions ∧
    who ∉ ((s.disconnected who).runTrace evs).2.map Prod.fst := by
  have h0 : who ∉ (s.disconnected who).subscriptions := by
    intro hmem
    exact absurd ((hnd.mem_erase_iff).1 hmem).1 (by simp)
  exact ⟨h0, (SharedStateService.runTrace_not_delivered evs _ who h0 hevs).2⟩

theorem C5_disconnection_silence_witness :
    ([3, 5] : List Nat).Nodup ∧
    (∀ e ∈ ([.input (Request.Apply fun n => n + 1) 3,
             .input (Request.ApplyOnce fun n => n * 2) 4] : List (Event Nat)),
        e ≠ Event.conn 5) ∧
    (5 ∉ ((⟨SharedHandler.new, [3, 5]⟩ : SharedStateService Nat).disconnected 5).subscriptions ∧
     5 ∉ (((⟨SharedHandler.new, [3, 5]⟩ : SharedStateService Nat).disconnected 5).runTrace
          [.input (Request.Apply fun n => n + 1) 3,
           .input (Request.ApplyOnce fun n => n * 2) 4]).2.map Prod.fst) :=
  ⟨by decide,
   by
     intro e he
     simp only [List.mem_cons, List.not_mem_nil, or_false] at he
     rcases he with rfl | rfl
     · exact fun hco => Event.noConfusion hco
     · exact fun hco => Event.noConfusion hco,
   C5_disconnection_silence ⟨SharedHandler.new, [3, 5]⟩ 5 (by decide)
     [.input (Request.Apply fun n => n + 1) 3,
      .input (Request.ApplyOnce fun n => n * 2) 4]
     (by
       intro e he
       simp only [List.mem_cons, List.not_mem_nil, or_false] at he
       rcases he with rfl | rfl
       · exact fun hco => Event.noConfusion hco
       · exact fun hco => Event.noConfusion hco)⟩

/-- C6: on construction, a persisting handler loads the prior record: with the
storage capability available and a record that deserializes to `v`, the
default-constructed model is replaced by `v`; with the capability unavailable,
the record missing, or deserialization failing, the default model is kept (the
constructor is total — no error is surfaced). -/
theorem C6_construction_load [Inhabited T] (env : StorageEnv T) :
    (StorageHandler.new env).val? =
      some (match env.available, env.record with
            | true, .ok v => v
            | _, _ => default) := by
  obtain ⟨avail, rec⟩ := env
  cases avail <;> cases rec <;>
    simp [StorageHandler.new, StorageHandler.load_state, StorageHandler.val?]

/-- C7: with the storage capability unavailable, the persisting handler is
observationally the in-memory handler: starting from construction, any sequence
of `apply`/`apply_once` mutations leaves its entire in-memory state (heap and
state pointer, hence every snapshot `state()` would return) equal to that of a
`SharedHandler` under the same mutations, and its storage handle stays absent. -/
theorem C7_degradation_equivalence [Inhabited T] (env : StorageEnv T)
    (henv : env.available = false) (ops : List (Request T)) :
    (ops.foldl (fun h r => r.runStorage h) (StorageHandler.new env)).toShared =
      ops.foldl (fun h r => r.runShared h) SharedHandler.new ∧
    (ops.foldl (fun h r => r.runStorage h) (StorageHandler.new env)).storage = none := by
  have hnew := StorageHandler.new_of_unavailable env henv
  have h0 : (StorageHandler.new env).storage = none := by rw [hnew]
  have hts : (StorageHandler.new env).toShared = SharedHandler.new := by
    rw [hnew]; rfl
  have := StorageHandler.foldl_of_none ops (StorageHandler.new env) h0
  rwa [hts] at this

theorem C7_degradation_equivalence_witness :
    (⟨false, .missing⟩ : StorageEnv Nat).available = false ∧
    (([.Apply fun n => n + 1, .ApplyOnce fun n => n * 2] :
        List (Request Nat)).foldl (fun h r => r.runStorage h)
        (StorageHandler.new ⟨false, .missing⟩)).toShared =
      ([.Apply fun n => n + 1, .ApplyOnce fun n => n * 2] :
        List (Request Nat)).foldl (fun h r => r.runShared h) SharedHandler.new ∧
    (([.Apply fun n => n + 1, .ApplyOnce fun n => n * 2] :
        List (Request Nat)).foldl (fun h r => r.runStorage h)
        (StorageHandler.new ⟨false, .missing⟩)).storage = none :=
  ⟨rfl,
   (C7_degradation_equivalence ⟨false, .missing⟩ rfl
     [.Apply fun n => n + 1, .ApplyOnce fun n => n * 2]).1,
   (C7_degradation_equivalence ⟨false, .missing⟩ rfl
     [.Apply fun n => n + 1, .ApplyOnce fun n => n * 2]).2⟩

/-- C8: cloning a persisting handler acquires the storage capability fresh from
the environment (its handle equals the one a fresh construction would acquire,
and the source's own handle is ignored entirely), while the clone's in-memory
state equals the source's current in-memory state — whatever value storage
would have loaded. -/
theorem C8_clone_fresh_storage [Inhabited T] (h : StorageHandler T) (env : StorageEnv T)
    (hptr : h.ptr < h.heap.vals.length) :
    (h.clone env).storage = (StorageHandler.new env).storage ∧
    (h.clone env).val? = h.val? ∧
    h.clone env = StorageHandler.clone { h with storage := none } env := by
  refine ⟨rfl, ?_, rfl⟩
  show ((StorageHandler.new env).heap.vals ++ [h.heap.vals.getD h.ptr default])[
      (StorageHandler.new env).heap.vals.length]? = h.val?
  rw [List.getElem?_append_right (Nat.le_refl _)]
  simp [StorageHandler.val?, List.getD, List.getElem?_eq_getElem hptr]

theorem C8_clone_fresh_storage_witness :
    (⟨⟨[7], [1]⟩, 0, some ⟨.ok 3⟩⟩ : StorageHandler Nat).ptr <
      (⟨⟨[7], [1]⟩, 0, some ⟨.ok 3⟩⟩ : StorageHandler Nat).heap.vals.length ∧
    (((⟨⟨[7], [1]⟩, 0, some ⟨.ok 3⟩⟩ : StorageHandler Nat).clone ⟨true, .ok 42⟩).storage =
        (StorageHandler.new ⟨true, .ok 42⟩).storage ∧
     ((⟨⟨[7], [1]⟩, 0, some ⟨.ok 3⟩⟩ : StorageHandler Nat).clone ⟨true, .ok 42⟩).val? =
        (⟨⟨[7], [1]⟩, 0, some ⟨.ok 3⟩⟩ : StorageHandler Nat).val? ∧
     (⟨⟨[7], [1]⟩, 0, some ⟨.ok 3⟩⟩ : StorageHandler Nat).clone ⟨true, .ok 42⟩ =
        StorageHandler.clone ⟨⟨[7], [1]⟩, 0, none⟩ ⟨true, .ok 42⟩) :=
  ⟨by decide,
   C8_clone_fresh_storage ⟨⟨[7], [1]⟩, 0, some ⟨.ok 3⟩⟩ ⟨true, .ok 42⟩ (by decide)⟩

/-- C9: on the `change` transition the wrapper copies its own currently cached
local snapshot onto the incoming properties before adopting them (the
parent-supplied handle value never replaces the locally known state, while the
parent's other property data is adopted), and signals a re-render by returning
`true`. -/
theorem C9_change_keeps_local_state {α : Type} (c : SharedStateComponent T α)
    (props : Props T α) :
    (c.change props).1.props.handle.state = c.props.handle.state ∧
    (c.change props).1.props.rest = props.rest ∧
    (c.change props).2 = true :=
  ⟨rfl, rfl, rfl⟩

/-- C10: the service does not exclude the requester from its own broadcast: a
registered subscriber dispatching a mutation is among the response recipients,
and the responses do not depend on the sender identity at all. -/
theorem C10_sender_not_excluded [Inhabited T] (s : SharedStateService T)
    (msg : Request T) (who : Nat) (hmem : who ∈ s.subscriptions) :
    who ∈ (s.handle_input msg who).2.map Prod.fst ∧
    ∀ w, (s.handle_input msg w).2 = (s.handle_input msg who).2 := by
  refine ⟨?_, fun w => rfl⟩
  rw [SharedStateService.handle_input_map_fst]
  exact hmem

theorem C10_sender_not_excluded_witness :
    5 ∈ ([5] : List Nat) ∧
    (5 ∈ ((⟨SharedHandler.new, [5]⟩ : SharedStateService Nat).handle_input
        (Request.ApplyOnce fun n => n + 1) 5).2.map Prod.fst ∧
     ∀ w, ((⟨SharedHandler.new, [5]⟩ : SharedStateService Nat).handle_input
        (Request.ApplyOnce fun n => n + 1) w).2 =
       ((⟨SharedHandler.new, [5]⟩ : SharedStateService Nat).handle_input
        (Request.ApplyOnce fun n => n + 1) 5).2) :=
  ⟨by decide,
   C10_sender_not_excluded ⟨SharedHandler.new, [5]⟩ (Request.ApplyOnce fun n => n + 1) 5
     (by decide)⟩

end YewState
